import Mathlib

/-!
# The `server` command of package `cmd` (src/cmd/server.go)

A shallow embedding of `StartServer`, `generateAndRunStartupFile` and
`startFileTemplate`, followed by the properties checked against them.

Conventions of the embedding:

* a Go `map[string]interface{}` is a list of key/value entries with pairwise
  distinct keys; the order of the list is the order in which one `range`
  loop happens to visit the map, so "every iteration order" is "every
  permutation of the list";
* a call made for its effect is recorded in a trace; the collaborator decides
  how the call ends (`Outcome`), the caller only reacts to it;
* `fmt.Sprintf` with `%s` on a string inserts the string verbatim;
* what the standard library decides is a parameter: the quoting of strings by
  `strconv`, and the order in which `fmt` prints the entries of a map (sorted
  by key from Go 1.12 on, the visiting order before).
-/

namespace Cmd

/-! ## Settings -/

/-- The values a setting can hold: the server command binds string and boolean
flags, integers stand for the remaining scalars. -/
inductive Value where
  | str (s : String)
  | bool (b : Bool)
  | int (i : Int)
  deriving DecidableEq, Repr

/-- Modelled from the spec: the process-wide settings store kept by the viper
library, which is not part of the sources. A store answers, per key, with the
value installed for that key, if any. -/
abbrev Store := String → Option Value

/-- Modelled from the spec: `viper.Set(key, value)` installs the value for the
key, overwriting any prior value for that key, and touches no other key. -/
def viperSet (st : Store) (key : String) (value : Value) : Store :=
  fun k => if k = key then some value else st k

/-- The conversion behind `viper.GetString`: a string is returned as is, a
boolean and an integer in their usual text form, a missing value as the empty
string. -/
def castToString : Option Value → String
  | some (Value.str s) => s
  | some (Value.bool b) => if b then "true" else "false"
  | some (Value.int i) => toString i
  | none => ""

/-- The conversion behind `viper.GetBool`: a string is read as
`strconv.ParseBool` reads it (anything unreadable is `false`), an integer is
true when non-zero, a missing value is `false`. -/
def castToBool : Option Value → Bool
  | some (Value.bool b) => b
  | some (Value.int i) => i != 0
  | some (Value.str s) => s ∈ ["1", "t", "T", "TRUE", "true", "True"]
  | none => false

/-- `viper.GetString(key)`. -/
def viperGetString (st : Store) (key : String) : String :=
  castToString (st key)

/-- `viper.GetBool(key)`. -/
def viperGetBool (st : Store) (key : String) : Bool :=
  castToBool (st key)

/-- The loop `for key, value := range config { viper.Set(key, value) }` of
`StartServer`; `config` lists the entries in the order the loop visits them. -/
def applyConfig (st : Store) (config : List (String × Value)) : Store :=
  config.foldl (fun s kv => viperSet s kv.1 kv.2) st

/-! ## The connection descriptor -/

/-- Lines 86-98 of `StartServer`: the string handed to `models.DBConnect`,
built by the same sequence of conditional appends. -/
def connectString (st : Store) : String :=
  let connectString := "dbname=" ++ viperGetString st "Server.DBName" ++ " sslmode=disable"
  let connectString :=
    if viperGetString st "Server.DBUser" ≠ "" then
      connectString ++ (" user=" ++ viperGetString st "Server.DBUser")
    else connectString
  let connectString :=
    if viperGetString st "Server.DBPassword" ≠ "" then
      connectString ++ (" password=" ++ viperGetString st "Server.DBPassword")
    else connectString
  let connectString :=
    if viperGetString st "Server.DBHost" ≠ "" then
      connectString ++ (" host=" ++ viperGetString st "Server.DBHost")
    else connectString
  let connectString :=
    if viperGetString st "Server.DBPort" ≠ "5432" then
      connectString ++ (" port=" ++ viperGetString st "Server.DBPort")
    else connectString
  connectString

/-- A store holding exactly the five database settings, each as a string. -/
def dbStore (name user password host port : String) : Store :=
  fun k =>
    if k = "Server.DBName" then some (Value.str name)
    else if k = "Server.DBUser" then some (Value.str user)
    else if k = "Server.DBPassword" then some (Value.str password)
    else if k = "Server.DBHost" then some (Value.str host)
    else if k = "Server.DBPort" then some (Value.str port)
    else none

/-- The descriptor as the specification words it: the fixed head, then each
optional segment, present or absent on its own condition, in the fixed
order user, password, host, port. -/
def describedDescriptor (name user password host port : String) : String :=
  "dbname=" ++ name ++ " sslmode=disable"
    ++ (if user = "" then "" else " user=" ++ user)
    ++ (if password = "" then "" else " password=" ++ password)
    ++ (if host = "" then "" else " host=" ++ host)
    ++ (if port = "5432" then "" else " port=" ++ port)

/-! ## The bootstrap sequence of `StartServer` -/

/-- How a call made for its effect ends, as seen by the caller: it returns
(whatever it returns is dropped by the call statement), it panics, or it never
comes back. -/
inductive Outcome where
  | returns
  | panics
  | blocks
  deriving DecidableEq, Repr

/-- The calls `StartServer` makes for their effect, with their arguments. -/
inductive Call where
  | ginSetReleaseMode
  | loggingInitialize
  | loggingGetLogger (name : String)
  | modelsDBConnect (driver connData : String)
  | modelsBootStrap
  | serverLoadInternalResources
  | viewsBootStrap
  | actionsBootStrap
  | controllersBootStrap
  | serverPostInit
  | serverGetServer
  | logInfo (msg : String)
  | srvRun
  deriving DecidableEq, Repr

/-- The calls of the bootstrap phases proper: storage, model registry, serving
layer, views, actions, controllers and the server handle. Mode selection and
logging are not among them. -/
def Call.isLifecycle : Call → Bool
  | Call.ginSetReleaseMode => false
  | Call.loggingInitialize => false
  | Call.loggingGetLogger _ => false
  | Call.logInfo _ => false
  | _ => true

/-- Sequential execution of call statements: each call is made, and the next
one is reached only when it returns. The result is the list of calls made and
the way the sequence ended. -/
def runCalls (env : Call → Outcome) : List Call → List Call × Outcome
  | [] => ([], Outcome.returns)
  | c :: rest =>
    match env c with
    | Outcome.returns => (c :: (runCalls env rest).1, (runCalls env rest).2)
    | Outcome.panics => ([c], Outcome.panics)
    | Outcome.blocks => ([c], Outcome.blocks)

/-- Lines 81-108 of `StartServer`: every call statement after the settings
loop, in program order. The only branch is the switch to release mode, taken
when `Server.Debug` is off; the log line sits between `server.GetServer` and
`srv.Run`. -/
def startServerCalls (st : Store) : List Call :=
  (if !viperGetBool st "Server.Debug" then [Call.ginSetReleaseMode] else [])
    ++ [Call.loggingInitialize,
        Call.loggingGetLogger "init",
        Call.modelsDBConnect (viperGetString st "Server.DBDriver") (connectString st),
        Call.modelsBootStrap,
        Call.serverLoadInternalResources,
        Call.viewsBootStrap,
        Call.actionsBootStrap,
        Call.controllersBootStrap,
        Call.serverPostInit,
        Call.serverGetServer,
        Call.logInfo "YEP is up and running",
        Call.srvRun]

/-- What one execution of `StartServer` leaves behind. -/
structure ServerRun where
  store : Store
  trace : List Call
  outcome : Outcome

/-- `StartServer(config)` started on the store `prior`, with collaborators
behaving as `env` says: the settings loop, then the call statements until one
of them does not return. Every statement occurs once, so one outcome per call
describes a run; the collaborators are taken to leave the settings store
alone. -/
def StartServer (env : Call → Outcome) (prior : Store) (config : List (String × Value)) :
    ServerRun :=
  let st := applyConfig prior config
  let r := runCalls env (startServerCalls st)
  { store := st, trace := r.1, outcome := r.2 }

/-! ## The start file template -/

/-- The anonymous struct `tmplData` handed to the template. -/
structure TmplData where
  Imports : List String
  Config : String
  deriving DecidableEq, Repr

/-- What can stand inside the `range` block of the template: literal text, or
the action `{{ . }}` printing the current element. -/
inductive Inner where
  | text (s : String)
  | dot
  deriving DecidableEq, Repr

/-- The nodes of a parsed template, as far as `startFileTemplate` uses them:
literal text, the action `{{ .Name }}` printing a field, and
`{{ range .Name }} ... {{ end }}`. -/
inductive Node where
  | text (s : String)
  | field (name : String)
  | range (name : String) (body : List Inner)
  deriving DecidableEq, Repr

/-- Field lookup for a field printed as text. -/
def TmplData.stringField (d : TmplData) (name : String) : Option String :=
  if name = "Config" then some d.Config else none

/-- Field lookup for a field ranged over. -/
def TmplData.sliceField (d : TmplData) (name : String) : Option (List String) :=
  if name = "Imports" then some d.Imports else none

/-- One node of a `range` body, with the current element as dot. -/
def execInner (dot : String) : Inner → String
  | Inner.text s => s
  | Inner.dot => dot

/-- The body of a `range`, run once for the element `dot`. -/
def execBody (body : List Inner) (dot : String) : String :=
  String.join (body.map (execInner dot))

/-- One node of the template. A `range` runs its body once per element, in the
order of the slice, and writes nothing for an empty slice. -/
def execNode (d : TmplData) : Node → Option String
  | Node.text s => some s
  | Node.field name => d.stringField name
  | Node.range name body => (d.sliceField name).map (fun xs => String.join (xs.map (execBody body)))

/-- Template execution: the nodes are run in order and their output is
concatenated; a failing node fails the execution. -/
def execute (d : TmplData) : List Node → Option String
  | [] => some ""
  | n :: rest =>
    match execNode d n, execute d rest with
    | some a, some b => some (a ++ b)
    | _, _ => none

/-- The template `startFileTemplate`, parsed: the text up to the `range`
action, the `range` over `.Imports` whose body is a tab, `_ "`, the element,
`"` and a newline, the text between `{{ end }}` and `{{ .Config }}`, the
`.Config` action, and the closing text. -/
def startFileTemplate : List Node :=
  [Node.text ("\n// This file is autogenerated by yep-server\n"
      ++ "// DO NOT MODIFY THIS FILE - ANY CHANGES WILL BE OVERWRITTEN\n"
      ++ "\npackage main\n\nimport (\n\t\"github.com/npiganeau/yep/cmd\"\n"),
   Node.range "Imports" [Inner.text "\t_ \"", Inner.dot, Inner.text "\"\n"],
   Node.text "\n)\n\nfunc main() \x7b\n\tcmd.StartServer(",
   Node.field "Config",
   Node.text ")\n\x7d\n"]

/-! ## The configuration literal -/

/-- A value inside the map `viper.AllSettings()` returns: a string, a boolean,
a signed or an unsigned integer, or a nested `map[string]interface{}` whose
entries are listed in the order a loop would visit them. -/
inductive GoValue where
  | str (s : String)
  | bool (b : Bool)
  | int (i : Int)
  | uint (n : Nat)
  | map (entries : List (String × GoValue))

/-- The `%#v` text of a non-nil `map[string]interface{}` whose entries, key and
printed value, come in the order they are printed: the type, then the entries
as `key:value` with the key quoted, separated by a comma and a space, between
braces. -/
def mapText (quote : String → String) (printed : List (String × String)) : String :=
  "map[string]interface \x7b\x7d\x7b"
    ++ ", ".intercalate (printed.map (fun e => quote e.1 ++ ":" ++ e.2))
    ++ "\x7d"

mutual
/-- The `%#v` text of a value: a string quoted as a Go string, a boolean as
`true` or `false`, a signed integer in decimal, an unsigned integer in
hexadecimal after `0x`, a nested map as `mapText` of its printed entries.
Two parts of the library are parameters: `quote` is the quoting of `strconv`,
and `mapOrder` is the order in which `fmt` prints the entries of a map, given
in the order a loop visits them. -/
def goSyntaxValue (quote : String → String)
    (mapOrder : List (String × String) → List (String × String)) : GoValue → String
  | GoValue.str s => quote s
  | GoValue.bool b => if b then "true" else "false"
  | GoValue.int i => toString i
  | GoValue.uint n => "0x" ++ String.mk (Nat.toDigits 16 n)
  | GoValue.map entries => mapText quote (mapOrder (goSyntaxEntries quote mapOrder entries))
/-- The entries of a map, each value printed, in the order they are visited. -/
def goSyntaxEntries (quote : String → String)
    (mapOrder : List (String × String) → List (String × String)) :
    List (String × GoValue) → List (String × String)
  | [] => []
  | (key, value) :: rest =>
    (key, goSyntaxValue quote mapOrder value) :: goSyntaxEntries quote mapOrder rest
end

/-- `fmt.Sprintf("%#v", m)` for the map `m` returned by `viper.AllSettings()`
(line 65). The call itself does no ordering: the order of the entries in the
text is the one `fmt` gives them. -/
def goSyntaxMap (quote : String → String)
    (mapOrder : List (String × String) → List (String × String))
    (m : List (String × GoValue)) : String :=
  goSyntaxValue quote mapOrder (GoValue.map m)

/-- Comparison of two keys as Go compares strings, position by position on
the character codes, a proper initial part coming first. -/
def keyLE : List Char → List Char → Bool
  | [], _ => true
  | _ :: _, [] => false
  | a :: as, b :: bs => a.toNat < b.toNat || (a.toNat == b.toNat && keyLE as bs)

/-- The map order of `fmt` from Go 1.12 on: the entries sorted by key. -/
def sortByKey (printed : List (String × String)) : List (String × String) :=
  printed.insertionSort (fun a b => keyLE a.1.data b.1.data = true)

/-- The map order of `fmt` before Go 1.12: the entries as they are visited. -/
def visitingOrder (printed : List (String × String)) : List (String × String) :=
  printed

/-- Two listings of one nested map, `SameMap visited m`: the listings are the
same, or one lists the entries of the other (whose keys are pairwise distinct)
in another order, or they differ in the listing of a nested map, or they are
linked by a chain of such steps. -/
inductive SameMap : List (String × GoValue) → List (String × GoValue) → Prop where
  | same (m : List (String × GoValue)) : SameMap m m
  | reorder {visited m : List (String × GoValue)} :
      (m.map Prod.fst).Nodup → visited.Perm m → SameMap visited m
  | inside {key : String} {visited sub rest : List (String × GoValue)} :
      SameMap visited sub →
      SameMap ((key, GoValue.map visited) :: rest) ((key, GoValue.map sub) :: rest)
  | chain {a b c : List (String × GoValue)} : SameMap a b → SameMap b c → SameMap a c

/-! ## `generateAndRunStartupFile` -/

/-- The part of `build.Package` the function reads. -/
structure Package where
  Imports : List String
  deriving DecidableEq, Repr

/-- What `generateAndRunStartupFile` depends on besides its argument:
`path.Join`, the result of `build.ImportDir` (a package, always present, and
an error or none), the package variable `generateTestModule`, the map
`viper.AllSettings()` returns (keys in lower case, one nested map per dot of a
setting name, every map listed in the order a loop would visit it), the
quoting of `strconv`, the order in which `fmt` prints the entries of a map,
the way `generate.CreateFileFromTemplate` ends, and the error `cmd.Run()`
returns (none when the child ran and exited cleanly). -/
structure LauncherEnv where
  pathJoin : String → String → String
  importDir : String → Package × Option String
  generateTestModule : Bool
  allSettings : List (String × GoValue)
  quote : String → String
  fmtMapOrder : List (String × String) → List (String × String)
  createFileFromTemplate : String → TmplData → Outcome
  cmdRun : List String → Option String

/-- The effects of `generateAndRunStartupFile` on the outside: the start file
written from the template, and the child process run with the parent's
standard streams. -/
inductive Effect where
  | createFileFromTemplate (fileName : String) (data : TmplData)
  | cmdRun (argv : List String)
  deriving DecidableEq, Repr

/-- How `generateAndRunStartupFile` ends: with its own panic and message, with
`generate.CreateFileFromTemplate` not returning, or by returning (it has no
result value). -/
inductive GenOutcome where
  | panicked (msg : String)
  | createFileStopped (how : Outcome)
  | returned
  deriving DecidableEq, Repr

/-- The effects made, in order, and the way the function ended. -/
structure GenResult where
  effects : List Effect
  outcome : GenOutcome
  deriving DecidableEq, Repr

/-- Lines 60-66: the data handed to the template. -/
def startFileData (env : LauncherEnv) (projectDir : String) : TmplData :=
  { Imports := (env.importDir (env.pathJoin projectDir "config")).1.Imports,
    Config := goSyntaxMap env.quote env.fmtMapOrder env.allSettings }

/-- The text of the start file: `startFileTemplate` executed on the data. -/
def startFileText (env : LauncherEnv) (projectDir : String) : Option String :=
  execute (startFileData env projectDir) startFileTemplate

/-- `generateAndRunStartupFile(projectDir)`. The error of `build.ImportDir` is
fatal unless `generateTestModule` is set; the value `cmd.Run()` returns is
dropped by the call statement. -/
def generateAndRunStartupFile (env : LauncherEnv) (projectDir : String) : GenResult :=
  let err := (env.importDir (env.pathJoin projectDir "config")).2
  match err, env.generateTestModule with
  | some e, false =>
    { effects := [], outcome := GenOutcome.panicked ("Error while importing project path: " ++ e) }
  | _, _ =>
    let tmplData := startFileData env projectDir
    let startFileName := env.pathJoin projectDir "start.go"
    match env.createFileFromTemplate startFileName tmplData with
    | Outcome.returns =>
      let _ := env.cmdRun ["go", "run", startFileName]
      { effects := [Effect.createFileFromTemplate startFileName tmplData,
                    Effect.cmdRun ["go", "run", startFileName]],
        outcome := GenOutcome.returned }
    | how =>
      { effects := [Effect.createFileFromTemplate startFileName tmplData],
        outcome := GenOutcome.createFileStopped how }

/-! ## Concrete inputs used in the examples -/

/-- Collaborators that all return, except `srv.Run`, which serves forever. -/
def servingEnv : Call → Outcome :=
  fun c => if c = Call.srvRun then Outcome.blocks else Outcome.returns

/-- The empty settings store. -/
def emptyStore : Store := fun _ => none

/-- A config map in one visiting order. -/
def sampleConfig : List (String × Value) :=
  [("Server.DBName", Value.str "proj"), ("Server.DBPort", Value.str "6000"),
   ("Server.Debug", Value.bool true)]

/-- The same config map in another visiting order. -/
def sampleConfigVisited : List (String × Value) :=
  [("Server.Debug", Value.bool true), ("Server.DBName", Value.str "proj"),
   ("Server.DBPort", Value.str "6000")]

/-- What `viper.AllSettings()` returns for the server command with its flags
at their defaults: the seven `Server.*` settings under the key `server`. -/
def serverSettings : List (String × GoValue) :=
  [("server", GoValue.map
    [("dbdriver", GoValue.str "postgres"), ("dbhost", GoValue.str ""),
     ("dbname", GoValue.str "yep"), ("dbpassword", GoValue.str ""),
     ("dbport", GoValue.str "5432"), ("dbuser", GoValue.str ""),
     ("debug", GoValue.bool false)])]

/-- The same map, the nested map visited with `dbhost` before `dbdriver`. -/
def serverSettingsVisited : List (String × GoValue) :=
  [("server", GoValue.map
    [("dbhost", GoValue.str ""), ("dbdriver", GoValue.str "postgres"),
     ("dbname", GoValue.str "yep"), ("dbpassword", GoValue.str ""),
     ("dbport", GoValue.str "5432"), ("dbuser", GoValue.str ""),
     ("debug", GoValue.bool false)])]

/-- A launcher environment for a project directory without a `config` package:
`build.ImportDir` returns an error and a package without imports. -/
def missingConfigEnv (testMode : Bool) : LauncherEnv :=
  { pathJoin := fun dir name => dir ++ "/" ++ name,
    importDir := fun _ => ({ Imports := [] }, some "cannot find package"),
    generateTestModule := testMode,
    allSettings := [],
    quote := fun s => "\"" ++ s ++ "\"",
    fmtMapOrder := sortByKey,
    createFileFromTemplate := fun _ _ => Outcome.returns,
    cmdRun := fun _ => none }

/-- A launcher environment for a project importing two modules, with the
default settings and an `fmt` that prints maps sorted by key, in which
everything succeeds up to `cmd.Run()`, whose returned error is `runErr`. -/
def sampleLauncherEnv (runErr : Option String) : LauncherEnv :=
  { pathJoin := fun dir name => dir ++ "/" ++ name,
    importDir := fun _ => ({ Imports := ["a/b", "c/d"] }, none),
    generateTestModule := false,
    allSettings := serverSettings,
    quote := fun s => "\"" ++ s ++ "\"",
    fmtMapOrder := sortByKey,
    createFileFromTemplate := fun _ _ => Outcome.returns,
    cmdRun := fun _ => runErr }

/-- The same project and settings with an `fmt` that prints the entries of a
map in the order it visits them, the nested map being visited as `visited`
lists it. -/
def visitingLauncherEnv (visited : List (String × GoValue)) : LauncherEnv :=
  { sampleLauncherEnv none with allSettings := visited, fmtMapOrder := visitingOrder }

end Cmd

namespace Cmd

theorem string_append_empty (s : String) : s ++ "" = s := by
  apply String.ext
  simp

theorem runCalls_subset (env : Call → Outcome) :
    ∀ (l : List Call), ∀ d ∈ (runCalls env l).1, d ∈ l
  | [], d, hd => by simp [runCalls] at hd
  | a :: rest, d, hd => by
    cases h : env a with
    | returns =>
      simp only [runCalls, h, List.mem_cons] at hd
      rcases hd with rfl | hd
      · exact List.mem_cons_self _ _
      · exact List.mem_cons_of_mem _ (runCalls_subset env rest d hd)
    | panics =>
      simp only [runCalls, h, List.mem_singleton] at hd
      simp [hd]
    | blocks =>
      simp only [runCalls, h, List.mem_singleton] at hd
      simp [hd]

theorem connectString_described (st : Store) :
    connectString st =
      describedDescriptor (viperGetString st "Server.DBName")
        (viperGetString st "Server.DBUser") (viperGetString st "Server.DBPassword")
        (viperGetString st "Server.DBHost") (viperGetString st "Server.DBPort") := by
  unfold connectString describedDescriptor
  by_cases hu : viperGetString st "Server.DBUser" = "" <;>
  by_cases hp : viperGetString st "Server.DBPassword" = "" <;>
  by_cases hh : viperGetString st "Server.DBHost" = "" <;>
  by_cases hq : viperGetString st "Server.DBPort" = "5432" <;>
  simp [hu, hp, hh, hq, string_append_empty, String.append_assoc]

/-- C1: in every run of `StartServer`, whatever the config map, the prior store
and the collaborators, the descriptor passed to `models.DBConnect` is the head
`dbname=<DBName> sslmode=disable` followed by the user, password, host and
port segments, each present exactly on its own condition (user, password and
host non-empty, port different from `5432`) and in that order, with nothing
else appended; the call is made as soon as the mode and logging set-up before
it return; the two examples of the specification evaluate as stated. -/
theorem connectString_grammar :
    (∀ (env : Call → Outcome) (prior : Store) (config : List (String × Value))
        (driver connData : String),
      Call.modelsDBConnect driver connData ∈ (StartServer env prior config).trace →
      connData =
        describedDescriptor
          (viperGetString (StartServer env prior config).store "Server.DBName")
          (viperGetString (StartServer env prior config).store "Server.DBUser")
          (viperGetString (StartServer env prior config).store "Server.DBPassword")
          (viperGetString (StartServer env prior config).store "Server.DBHost")
          (viperGetString (StartServer env prior config).store "Server.DBPort"))
    ∧ (∀ (env : Call → Outcome) (prior : Store) (config : List (String × Value)),
      env Call.ginSetReleaseMode = Outcome.returns →
      env Call.loggingInitialize = Outcome.returns →
      env (Call.loggingGetLogger "init") = Outcome.returns →
      Call.modelsDBConnect
          (viperGetString (StartServer env prior config).store "Server.DBDriver")
          (connectString (StartServer env prior config).store)
        ∈ (StartServer env prior config).trace)
    ∧ connectString (dbStore "proj" "" "" "" "5432") = "dbname=proj sslmode=disable"
    ∧ connectString (dbStore "proj" "alice" "" "db1" "6000")
        = "dbname=proj sslmode=disable user=alice host=db1 port=6000" := by
  refine ⟨?_, ?_, by decide, by decide⟩
  · intro env prior config driver connData hmem
    have hsub := runCalls_subset env _ _ hmem
    have hstore : (StartServer env prior config).store = applyConfig prior config := rfl
    rw [hstore, ← connectString_described]
    unfold startServerCalls at hsub
    split at hsub <;> simp at hsub <;> exact hsub.2
  · intro env prior config hgin hinit hget
    simp only [StartServer, startServerCalls]
    split <;>
    cases hdb : env (Call.modelsDBConnect (viperGetString (applyConfig prior config)
        "Server.DBDriver") (connectString (applyConfig prior config))) <;>
    simp [runCalls, hgin, hinit, hget, hdb]

theorem runCalls_append_last (env : Call → Outcome) (l : List Call) (c : Call)
    (h : ∀ d ∈ l, env d = Outcome.returns) :
    runCalls env (l ++ [c]) = (l ++ [c], env c) := by
  induction l with
  | nil =>
    cases hc : env c <;> simp [runCalls, hc]
  | cons a l ih =>
    have ha : env a = Outcome.returns := h a (List.mem_cons_self a l)
    have ih2 := ih (fun d hd => h d (List.mem_cons_of_mem a hd))
    show runCalls env (a :: (l ++ [c])) = (a :: (l ++ [c]), env c)
    simp only [runCalls, ha, ih2]

theorem startServerCalls_nodup (st : Store) : (startServerCalls st).Nodup := by
  unfold startServerCalls
  split <;> simp

theorem startServerCalls_last (st : Store) :
    ∃ l, startServerCalls st = l ++ [Call.srvRun] := by
  refine ⟨(startServerCalls st).dropLast, ?_⟩
  unfold startServerCalls
  split <;> simp [List.dropLast]

/-- C2: in every run of `StartServer` in which each call before `srv.Run`
returns, the calls made are exactly the statements of the function in program
order; among them the calls of the bootstrap phases are exactly
`models.DBConnect`, `models.BootStrap`, `server.LoadInternalResources`,
`views.BootStrap`, `actions.BootStrap`, `controllers.BootStrap`,
`server.PostInit`, `server.GetServer`, `srv.Run`, in that order and each made
exactly once, so that each phase has returned before the next one starts and
`srv.Run` is entered last. -/
theorem startServer_call_sequence (env : Call → Outcome) (prior : Store)
    (config : List (String × Value))
    (hok : ∀ c ∈ startServerCalls (applyConfig prior config),
      c ≠ Call.srvRun → env c = Outcome.returns) :
    (StartServer env prior config).trace
        = startServerCalls (StartServer env prior config).store
    ∧ (StartServer env prior config).trace.filter Call.isLifecycle
        = [Call.modelsDBConnect
             (viperGetString (StartServer env prior config).store "Server.DBDriver")
             (connectString (StartServer env prior config).store),
           Call.modelsBootStrap,
           Call.serverLoadInternalResources,
           Call.viewsBootStrap,
           Call.actionsBootStrap,
           Call.controllersBootStrap,
           Call.serverPostInit,
           Call.serverGetServer,
           Call.srvRun]
    ∧ (∀ c ∈ (StartServer env prior config).trace.filter Call.isLifecycle,
        (StartServer env prior config).trace.count c = 1)
    ∧ (StartServer env prior config).outcome = env Call.srvRun := by
  obtain ⟨l, hl⟩ := startServerCalls_last (applyConfig prior config)
  have hl_ok : ∀ d ∈ l, env d = Outcome.returns := by
    intro d hd
    have hmem : d ∈ startServerCalls (applyConfig prior config) := by
      rw [hl]; exact List.mem_append_left _ hd
    refine hok d hmem ?_
    rintro rfl
    have hnd := startServerCalls_nodup (applyConfig prior config)
    rw [hl] at hnd
    have := List.disjoint_of_nodup_append hnd hd
    simp at this
  have hrun := runCalls_append_last env l Call.srvRun hl_ok
  have htrace : (StartServer env prior config).trace
      = startServerCalls (applyConfig prior config) := by
    simp only [StartServer, hl, hrun]
  have hout : (StartServer env prior config).outcome = env Call.srvRun := by
    simp only [StartServer, hl, hrun]
  have hstore : (StartServer env prior config).store = applyConfig prior config := rfl
  refine ⟨by rw [htrace, hstore], ?_, ?_, hout⟩
  · rw [htrace, hstore]
    unfold startServerCalls
    split <;> simp [List.filter, Call.isLifecycle]
  · intro c hc
    rw [List.mem_filter] at hc
    rw [htrace] at hc ⊢
    exact List.count_eq_one_of_mem (startServerCalls_nodup _) hc.1

theorem applyConfig_cons (st : Store) (k : String) (v : Value)
    (rest : List (String × Value)) :
    applyConfig st ((k, v) :: rest) = applyConfig (viperSet st k v) rest := rfl

theorem applyConfig_other (config : List (String × Value)) :
    ∀ (st : Store) (k : String), k ∉ config.map Prod.fst → applyConfig st config k = st k := by
  induction config with
  | nil => intro st k _; rfl
  | cons kv rest ih =>
    intro st k hk
    obtain ⟨a, w⟩ := kv
    simp only [List.map_cons, List.mem_cons, not_or] at hk
    rw [applyConfig_cons, ih _ _ hk.2]
    simp [viperSet, hk.1]

theorem applyConfig_entry (config : List (String × Value)) :
    ∀ (st : Store), (config.map Prod.fst).Nodup →
      ∀ kv ∈ config, applyConfig st config kv.1 = some kv.2 := by
  induction config with
  | nil => intro st _ kv hkv; simp at hkv
  | cons e rest ih =>
    intro st hnd kv hkv
    obtain ⟨a, w⟩ := e
    simp only [List.map_cons, List.nodup_cons] at hnd
    rw [applyConfig_cons]
    rcases List.mem_cons.1 hkv with rfl | hmem
    · rw [applyConfig_other rest _ _ hnd.1]
      simp [viperSet]
    · exact ih _ hnd.2 kv hmem

/-- C5: for every config map (entries with pairwise distinct keys, in the order
the loop visits them) and every prior store, after the settings loop of
`StartServer` the store maps each key of config to config's value for it, maps
every other key to what it held before, and is the same store whatever the
order in which the entries were visited. -/
theorem applyConfig_overwrites (env : Call → Outcome) (prior : Store)
    (config : List (String × Value))
    (hkeys : (config.map Prod.fst).Nodup) :
    (∀ kv ∈ config, (StartServer env prior config).store kv.1 = some kv.2)
    ∧ (∀ k, k ∉ config.map Prod.fst → (StartServer env prior config).store k = prior k)
    ∧ (∀ visited : List (String × Value), visited.Perm config →
        (StartServer env prior visited).store = (StartServer env prior config).store) := by
  refine ⟨applyConfig_entry config prior hkeys, applyConfig_other config prior, ?_⟩
  intro visited hperm
  show applyConfig prior visited = applyConfig prior config
  funext k
  have hkeys2 : (visited.map Prod.fst).Nodup := (hperm.map Prod.fst).nodup_iff.2 hkeys
  by_cases hk : k ∈ config.map Prod.fst
  · obtain ⟨kv, hkv, rfl⟩ := List.mem_map.1 hk
    rw [applyConfig_entry config prior hkeys kv hkv,
      applyConfig_entry visited prior hkeys2 kv (hperm.mem_iff.2 hkv)]
  · have hk2 : k ∉ visited.map Prod.fst := fun h => hk ((hperm.map Prod.fst).mem_iff.1 h)
    rw [applyConfig_other config prior k hk, applyConfig_other visited prior k hk2]

/-- C7: with `Server.DBHost` empty and `Server.DBPort` set to `6000`, the
descriptor `StartServer` builds still carries the segment ` port=6000`: the
port is appended whenever it differs from `5432`, whether or not a host is
set. -/
theorem connectString_port_without_host :
    viperGetString (dbStore "proj" "" "" "" "6000") "Server.DBHost" = ""
    ∧ connectString (dbStore "proj" "" "" "" "6000") = "dbname=proj sslmode=disable port=6000" := by
  decide

/-- C10: the descriptor is not an injective function of the five database
settings: for every database name, user `u password=p` with an empty password
and user `u` with password `p` (no host, port `5432`) both give
`dbname=<DBName> sslmode=disable user=u password=p`. -/
theorem connectString_not_injective :
    (∀ name : String,
      connectString (dbStore name "u password=p" "" "" "5432")
          = "dbname=" ++ name ++ " sslmode=disable user=u password=p"
      ∧ connectString (dbStore name "u" "p" "" "5432")
          = "dbname=" ++ name ++ " sslmode=disable user=u password=p")
    ∧ ¬ Function.Injective
        (fun s : String × String × String × String × String =>
          connectString (dbStore s.1 s.2.1 s.2.2.1 s.2.2.2.1 s.2.2.2.2)) := by
  have h : ∀ name : String,
      connectString (dbStore name "u password=p" "" "" "5432")
          = "dbname=" ++ name ++ " sslmode=disable user=u password=p"
      ∧ connectString (dbStore name "u" "p" "" "5432")
          = "dbname=" ++ name ++ " sslmode=disable user=u password=p" := by
    intro name
    constructor <;>
    simp [connectString, viperGetString, dbStore, castToString, String.append_assoc]
  refine ⟨h, ?_⟩
  intro hinj
  have heq := @hinj ("proj", "u password=p", "", "", "5432") ("proj", "u", "p", "", "5432")
    (by
      show connectString (dbStore "proj" "u password=p" "" "" "5432")
        = connectString (dbStore "proj" "u" "p" "" "5432")
      rw [(h "proj").1, (h "proj").2])
  simp at heq

theorem execute_startFileTemplate (imports : List String) (config : String) :
    execute { Imports := imports, Config := config } startFileTemplate
      = some (("\n// This file is autogenerated by yep-server\n"
            ++ "// DO NOT MODIFY THIS FILE - ANY CHANGES WILL BE OVERWRITTEN\n"
            ++ "\npackage main\n\nimport (\n\t\"github.com/npiganeau/yep/cmd\"\n")
          ++ String.join (imports.map (fun path => "\t_ \"" ++ path ++ "\"\n"))
          ++ ("\n)\n\nfunc main() \x7b\n\tcmd.StartServer(" ++ config ++ ")\n\x7d\n")) := by
  have hbody : ∀ path : String,
      execBody [Inner.text "\t_ \"", Inner.dot, Inner.text "\"\n"] path
        = "\t_ \"" ++ path ++ "\"\n" := by
    intro path
    apply String.ext
    simp [execBody, execInner, String.join]
  have hmap : imports.map (execBody [Inner.text "\t_ \"", Inner.dot, Inner.text "\"\n"])
      = imports.map (fun path => "\t_ \"" ++ path ++ "\"\n") :=
    List.map_congr_left (fun path _ => hbody path)
  simp [startFileTemplate, execute, execNode, TmplData.sliceField, TmplData.stringField, hmap,
    String.append_assoc, string_append_empty]

/-- C4: for every list of import paths (and every config literal) the text
rendered from `startFileTemplate` is the fixed head ending with the import of
the cmd package, then one line `_ "<path>"` (after a tab) per element of the
list, in the order of the list, then the fixed tail carrying the config; for
the list `a/b`, `c/d` the line of `a/b` comes right before that of `c/d`. -/
theorem startFileTemplate_imports :
    (∀ (imports : List String) (config : String),
      execute { Imports := imports, Config := config } startFileTemplate
        = some (("\n// This file is autogenerated by yep-server\n"
              ++ "// DO NOT MODIFY THIS FILE - ANY CHANGES WILL BE OVERWRITTEN\n"
              ++ "\npackage main\n\nimport (\n\t\"github.com/npiganeau/yep/cmd\"\n")
            ++ String.join (imports.map (fun path => "\t_ \"" ++ path ++ "\"\n"))
            ++ ("\n)\n\nfunc main() \x7b\n\tcmd.StartServer(" ++ config ++ ")\n\x7d\n")))
    ∧ execute { Imports := ["a/b", "c/d"], Config := "cfg" } startFileTemplate
        = some ("\n// This file is autogenerated by yep-server\n"
            ++ "// DO NOT MODIFY THIS FILE - ANY CHANGES WILL BE OVERWRITTEN\n"
            ++ "\npackage main\n\nimport (\n\t\"github.com/npiganeau/yep/cmd\"\n"
            ++ "\t_ \"a/b\"\n\t_ \"c/d\"\n"
            ++ "\n)\n\nfunc main() \x7b\n\tcmd.StartServer(cfg)\n\x7d\n") :=
  ⟨execute_startFileTemplate, rfl⟩

theorem keyLE_total : ∀ a b : List Char, keyLE a b = true ∨ keyLE b a = true
  | [], _ => Or.inl rfl
  | _ :: _, [] => Or.inr rfl
  | a :: as, b :: bs => by
    rcases Nat.lt_trichotomy a.toNat b.toNat with h | h | h
    · left; simp [keyLE, h]
    · rcases keyLE_total as bs with h2 | h2
      · left; simp [keyLE, h, h2]
      · right; simp [keyLE, h, h2]
    · right; simp [keyLE, h]

theorem keyLE_trans : ∀ a b c : List Char,
    keyLE a b = true → keyLE b c = true → keyLE a c = true
  | [], _, _, _, _ => rfl
  | _ :: _, [], _, h, _ => by simp [keyLE] at h
  | _ :: _, _ :: _, [], _, h => by simp [keyLE] at h
  | a :: as, b :: bs, c :: cs, hab, hbc => by
    simp only [keyLE, Bool.or_eq_true, decide_eq_true_eq, Bool.and_eq_true,
      beq_iff_eq] at hab hbc ⊢
    rcases hab with hab | ⟨hab, hab2⟩ <;> rcases hbc with hbc | ⟨hbc, hbc2⟩
    · left; omega
    · left; omega
    · left; omega
    · right; exact ⟨by omega, keyLE_trans as bs cs hab2 hbc2⟩

theorem keyLE_antisymm : ∀ a b : List Char,
    keyLE a b = true → keyLE b a = true → a = b
  | [], [], _, _ => rfl
  | [], _ :: _, _, h => by simp [keyLE] at h
  | _ :: _, [], h, _ => by simp [keyLE] at h
  | a :: as, b :: bs, hab, hba => by
    simp only [keyLE, Bool.or_eq_true, decide_eq_true_eq, Bool.and_eq_true,
      beq_iff_eq] at hab hba
    rcases hab with hab | ⟨hab, hab2⟩ <;> rcases hba with hba | ⟨hba, hba2⟩
    · omega
    · omega
    · omega
    · have hc : a = b := by
        apply Char.ext
        apply UInt32.eq_of_val_eq
        apply Fin.ext
        exact hab
      rw [hc, keyLE_antisymm as bs hab2 hba2]

theorem sortByKey_perm (m visited : List (String × String))
    (hperm : visited.Perm m) (hkeys : (m.map Prod.fst).Nodup) :
    sortByKey visited = sortByKey m := by
  haveI : IsTotal (String × String) (fun a b => keyLE a.1.data b.1.data = true) :=
    ⟨fun a b => keyLE_total a.1.data b.1.data⟩
  haveI : IsTrans (String × String) (fun a b => keyLE a.1.data b.1.data = true) :=
    ⟨fun a b c hab hbc => keyLE_trans a.1.data b.1.data c.1.data hab hbc⟩
  unfold sortByKey
  refine List.Perm.eq_of_sorted ?_ (List.sorted_insertionSort _ visited)
    (List.sorted_insertionSort _ m) ?_
  · intro a b ha hb hab hba
    have ha2 : a ∈ m := hperm.mem_iff.1 ((List.perm_insertionSort _ visited).mem_iff.1 ha)
    have hb2 : b ∈ m := (List.perm_insertionSort _ m).mem_iff.1 hb
    exact List.inj_on_of_nodup_map hkeys ha2 hb2
      (String.ext (keyLE_antisymm a.1.data b.1.data hab hba))
  · exact ((List.perm_insertionSort _ visited).trans hperm).trans
      (List.perm_insertionSort _ m).symm

theorem goSyntaxEntries_eq_map (quote : String → String)
    (mapOrder : List (String × String) → List (String × String)) :
    ∀ m : List (String × GoValue),
      goSyntaxEntries quote mapOrder m
        = m.map (fun e => (e.1, goSyntaxValue quote mapOrder e.2))
  | [] => by simp [goSyntaxEntries]
  | (key, value) :: rest => by
    simp [goSyntaxEntries, goSyntaxEntries_eq_map quote mapOrder rest]

theorem goSyntaxMap_sameMap (quote : String → String)
    (visited m : List (String × GoValue)) (hsame : SameMap visited m) :
    goSyntaxMap quote sortByKey visited = goSyntaxMap quote sortByKey m := by
  induction hsame with
  | same m => rfl
  | @reorder visited m hkeys hperm =>
    simp only [goSyntaxMap, goSyntaxValue]
    congr 1
    apply sortByKey_perm
    · rw [goSyntaxEntries_eq_map, goSyntaxEntries_eq_map]
      exact hperm.map _
    · rw [goSyntaxEntries_eq_map, List.map_map]
      exact hkeys
  | @inside key visited sub rest _ ih =>
    simp only [goSyntaxMap, goSyntaxValue, goSyntaxEntries] at ih ⊢
    rw [ih]
  | chain _ _ ih1 ih2 => exact ih1.trans ih2

/-- C6 as amended: for a fixed project (hence a fixed list of imports) and a
fixed settings map, if `fmt` prints the entries of a map sorted by key, the
data handed to the template and the text rendered from it are the same
whatever the order in which the settings map and the maps nested in it are
visited, and a text is always rendered. -/
theorem startFileText_order_independent (env : LauncherEnv) (projectDir : String)
    (visited : List (String × GoValue))
    (hfmt : env.fmtMapOrder = sortByKey)
    (hsame : SameMap visited env.allSettings) :
    startFileData { env with allSettings := visited } projectDir = startFileData env projectDir
    ∧ startFileText { env with allSettings := visited } projectDir = startFileText env projectDir
    ∧ (∃ text, startFileText env projectDir = some text) := by
  have hdata : startFileData { env with allSettings := visited } projectDir
      = startFileData env projectDir := by
    simp only [startFileData, hfmt, goSyntaxMap_sameMap env.quote visited env.allSettings hsame]
  refine ⟨hdata, ?_, ?_⟩
  · simp only [startFileText, hdata]
  · exact ⟨_, execute_startFileTemplate _ _⟩

set_option maxRecDepth 20000 in
/-- C6 as stated fails when `fmt` prints the entries of a map in the order it
visits them, as it did before Go 1.12: for the default settings of the server
command, one and the same settings map, visited with `dbhost` before
`dbdriver` or after it, gives two different config literals, hence two
different start files. -/
theorem startFileText_follows_visiting_order :
    SameMap serverSettingsVisited serverSettings
    ∧ (startFileData (visitingLauncherEnv serverSettingsVisited) "proj").Config
        = "map[string]interface \x7b\x7d\x7b\"server\":map[string]interface \x7b\x7d\x7b"
          ++ "\"dbhost\":\"\", \"dbdriver\":\"postgres\", \"dbname\":\"yep\", "
          ++ "\"dbpassword\":\"\", \"dbport\":\"5432\", \"dbuser\":\"\", \"debug\":false\x7d\x7d"
    ∧ (startFileData (visitingLauncherEnv serverSettings) "proj").Config
        = "map[string]interface \x7b\x7d\x7b\"server\":map[string]interface \x7b\x7d\x7b"
          ++ "\"dbdriver\":\"postgres\", \"dbhost\":\"\", \"dbname\":\"yep\", "
          ++ "\"dbpassword\":\"\", \"dbport\":\"5432\", \"dbuser\":\"\", \"debug\":false\x7d\x7d"
    ∧ startFileText (visitingLauncherEnv serverSettingsVisited) "proj"
        ≠ startFileText (visitingLauncherEnv serverSettings) "proj" := by
  refine ⟨SameMap.inside (SameMap.reorder (by decide) (List.Perm.swap _ _ _)), rfl, rfl, ?_⟩
  have hvisited : startFileText (visitingLauncherEnv serverSettingsVisited) "proj"
      = some ("\n"
        ++ "// This file is autogenerated by yep-server\n"
        ++ "// DO NOT MODIFY THIS FILE - ANY CHANGES WILL BE OVERWRITTEN"
        ++ "\n"
        ++ "\n"
        ++ "package main\n"
        ++ "\n"
        ++ "import (\n"
        ++ "\t\"github.com/npiganeau/yep/cmd\"\n"
        ++ "\t_ \"a/b\"\n"
        ++ "\t_ \"c/d\"\n"
        ++ "\n"
        ++ ")\n"
        ++ "\n"
        ++ "func main() \x7b\n"
        ++ "\tcmd.StartServer(map[string]interface \x7b\x7d\x7b\"server\":map[string"
        ++ "]interface \x7b\x7d\x7b\"dbhost\":\"\", \"dbdriver\":\"postgres\", \"dbname\":\""
        ++ "yep\", \"dbpassword\":\"\", \"dbport\":\"5432\", \"dbuser\":\"\", \"debug\""
        ++ ":false\x7d\x7d)\n"
        ++ "\x7d\n") := rfl
  have hlisted : startFileText (visitingLauncherEnv serverSettings) "proj"
      = some ("\n"
        ++ "// This file is autogenerated by yep-server\n"
        ++ "// DO NOT MODIFY THIS FILE - ANY CHANGES WILL BE OVERWRITTEN"
        ++ "\n"
        ++ "\n"
        ++ "package main\n"
        ++ "\n"
        ++ "import (\n"
        ++ "\t\"github.com/npiganeau/yep/cmd\"\n"
        ++ "\t_ \"a/b\"\n"
        ++ "\t_ \"c/d\"\n"
        ++ "\n"
        ++ ")\n"
        ++ "\n"
        ++ "func main() \x7b\n"
        ++ "\tcmd.StartServer(map[string]interface \x7b\x7d\x7b\"server\":map[string"
        ++ "]interface \x7b\x7d\x7b\"dbdriver\":\"postgres\", \"dbhost\":\"\", \"dbname\":\""
        ++ "yep\", \"dbpassword\":\"\", \"dbport\":\"5432\", \"dbuser\":\"\", \"debug\""
        ++ ":false\x7d\x7d)\n"
        ++ "\x7d\n") := rfl
  rw [hvisited, hlisted]
  decide

/-- C8: `generateAndRunStartupFile` ends with a panic of its own exactly when
`build.ImportDir` returned an error and `generateTestModule` is off; the panic
then carries the message `Error while importing project path: ` followed by
the error, and nothing has been written or run. In every other case, an import
error with `generateTestModule` on included, the first effect is the creation
of the start file from the template, and once that returns the child process
is run and the function returns. Both cases are evaluated on a project
directory without a config package. -/
theorem generateAndRunStartupFile_import_error (env : LauncherEnv) (projectDir : String) :
    ((∃ msg, (generateAndRunStartupFile env projectDir).outcome = GenOutcome.panicked msg)
      ↔ ((env.importDir (env.pathJoin projectDir "config")).2 ≠ none
          ∧ env.generateTestModule = false))
    ∧ (∀ e, (env.importDir (env.pathJoin projectDir "config")).2 = some e →
        env.generateTestModule = false →
        generateAndRunStartupFile env projectDir
          = { effects := [],
              outcome := GenOutcome.panicked ("Error while importing project path: " ++ e) })
    ∧ (((env.importDir (env.pathJoin projectDir "config")).2 = none
          ∨ env.generateTestModule = true) →
        (generateAndRunStartupFile env projectDir).effects.head?
            = some (Effect.createFileFromTemplate (env.pathJoin projectDir "start.go")
                (startFileData env projectDir))
        ∧ (env.createFileFromTemplate (env.pathJoin projectDir "start.go")
              (startFileData env projectDir) = Outcome.returns →
            generateAndRunStartupFile env projectDir
              = { effects := [Effect.createFileFromTemplate (env.pathJoin projectDir "start.go")
                                (startFileData env projectDir),
                              Effect.cmdRun ["go", "run", env.pathJoin projectDir "start.go"]],
                  outcome := GenOutcome.returned }))
    ∧ generateAndRunStartupFile (missingConfigEnv false) "proj"
        = { effects := [],
            outcome := GenOutcome.panicked
              "Error while importing project path: cannot find package" }
    ∧ generateAndRunStartupFile (missingConfigEnv true) "proj"
        = { effects := [Effect.createFileFromTemplate "proj/start.go"
                          { Imports := [], Config := "map[string]interface \x7b\x7d\x7b\x7d" },
                        Effect.cmdRun ["go", "run", "proj/start.go"]],
            outcome := GenOutcome.returned } := by
  refine ⟨?_, ?_, ?_, by decide, by decide⟩ <;>
  unfold generateAndRunStartupFile <;>
  cases herr : (env.importDir (env.pathJoin projectDir "config")).2 <;>
  cases hgtm : env.generateTestModule <;>
  cases hcreate : env.createFileFromTemplate (env.pathJoin projectDir "start.go")
      (startFileData env projectDir) <;>
  simp [hcreate]

/-- C9: when `cmd.Run()` returns an error because the child could not be
started, `generateAndRunStartupFile` makes the same effects and ends the same
way as when `cmd.Run()` returns no error: it returns normally. -/
theorem generateAndRunStartupFile_drops_run_error :
    (∀ (env : LauncherEnv) (projectDir e : String),
      generateAndRunStartupFile { env with cmdRun := fun _ => some e } projectDir
        = generateAndRunStartupFile { env with cmdRun := fun _ => none } projectDir)
    ∧ (sampleLauncherEnv (some "exec: \"go\": executable file not found in $PATH")).cmdRun
          ["go", "run", "proj/start.go"]
        = some "exec: \"go\": executable file not found in $PATH"
    ∧ (generateAndRunStartupFile
          (sampleLauncherEnv (some "exec: \"go\": executable file not found in $PATH"))
          "proj").outcome = GenOutcome.returned
    ∧ (generateAndRunStartupFile (sampleLauncherEnv none) "proj").outcome
        = GenOutcome.returned := by
  refine ⟨fun env projectDir e => rfl, rfl, rfl, rfl⟩

/-! ## Instances at concrete inputs -/

theorem startServer_call_sequence_witness :
    (StartServer servingEnv emptyStore sampleConfig).trace.filter Call.isLifecycle
        = [Call.modelsDBConnect "" "dbname=proj sslmode=disable port=6000",
           Call.modelsBootStrap,
           Call.serverLoadInternalResources,
           Call.viewsBootStrap,
           Call.actionsBootStrap,
           Call.controllersBootStrap,
           Call.serverPostInit,
           Call.serverGetServer,
           Call.srvRun]
    ∧ (StartServer servingEnv emptyStore sampleConfig).outcome = Outcome.blocks :=
  have h := startServer_call_sequence servingEnv emptyStore sampleConfig
    (by intro c _ hc; simp [servingEnv, hc])
  ⟨h.2.1.trans (by decide), h.2.2.2.trans (by decide)⟩

theorem applyConfig_overwrites_witness :
    (sampleConfig.map Prod.fst).Nodup
    ∧ (StartServer servingEnv (dbStore "old" "bob" "" "" "5432") sampleConfig).store
          "Server.DBName" = some (Value.str "proj")
    ∧ (StartServer servingEnv (dbStore "old" "bob" "" "" "5432") sampleConfig).store
          "Server.DBUser" = some (Value.str "bob")
    ∧ (StartServer servingEnv (dbStore "old" "bob" "" "" "5432") sampleConfigVisited).store
        = (StartServer servingEnv (dbStore "old" "bob" "" "" "5432") sampleConfig).store :=
  have h := applyConfig_overwrites servingEnv (dbStore "old" "bob" "" "" "5432") sampleConfig
    (by decide)
  ⟨by decide,
   h.1 ("Server.DBName", Value.str "proj") (by decide),
   (h.2.1 "Server.DBUser" (by decide)).trans (by decide),
   h.2.2 sampleConfigVisited (by decide)⟩

theorem startFileText_order_independent_witness :
    SameMap serverSettingsVisited serverSettings
    ∧ startFileText { sampleLauncherEnv none with allSettings := serverSettingsVisited } "proj"
        = startFileText (sampleLauncherEnv none) "proj"
    ∧ (startFileData (sampleLauncherEnv none) "proj").Config
        = "map[string]interface \x7b\x7d\x7b\"server\":map[string]interface \x7b\x7d\x7b"
          ++ "\"dbdriver\":\"postgres\", \"dbhost\":\"\", \"dbname\":\"yep\", "
          ++ "\"dbpassword\":\"\", \"dbport\":\"5432\", \"dbuser\":\"\", \"debug\":false\x7d\x7d" :=
  have hsame : SameMap serverSettingsVisited serverSettings :=
    SameMap.inside (SameMap.reorder (by decide) (List.Perm.swap _ _ _))
  ⟨hsame,
   (startFileText_order_independent (sampleLauncherEnv none) "proj" serverSettingsVisited
      rfl hsame).2.1,
   rfl⟩

end Cmd
